import Mathlib

/-!
Shallow embedding of the Day One export pipeline (`dayone_export/__init__.py`).

Entries are modelled as Python dictionaries: association lists from string
keys to plist values, with Python's dict semantics (first-match lookup,
in-place replacement on key collision, append for fresh keys).  Naive
datetimes are wall-clock instants measured in seconds; aware datetimes
carry the resolved timezone identifier.  Timezones are modelled as fixed
UTC offsets looked up from an identifier table (pytz without DST
transitions); an identifier absent from the table plays the role of an
unknown timezone, for which the code falls back to UTC.  Fallible Python
code (exceptions) is modelled with `Except`.
-/

/-- Scalar plist values that can occur inside a nested sub-record
(Location, Weather, Music, Creator). -/
inductive Scalar where
  | s (v : String)
  | i (v : Int)
  | b (v : Bool)
deriving DecidableEq, Repr

/-- Top-level plist values of one decoded journal entry. `date` is a naive
datetime (UTC wall clock, in seconds); `adate` is an aware datetime: local
wall clock plus the timezone identifier attached by `pytz`. -/
inductive Value where
  | str (v : String)
  | int (v : Int)
  | bool (v : Bool)
  | date (wall : Int)
  | adate (wall : Int) (zone : String)
  | tags (l : List String)
  | sub (d : List (String × Scalar))
deriving DecidableEq, Repr

def Value.ofScalar : Scalar → Value
  | .s v => .str v
  | .i v => .int v
  | .b v => .bool v

/-- A Python dict with string keys, as an association list in key-insertion
order (CPython dicts preserve insertion order; replacing a value keeps the
key's position). -/
abbrev Dict := List (String × Value)

def dlookup : Dict → String → Option Value
  | [], _ => none
  | (k2, v) :: rest, k => if k2 = k then some v else dlookup rest k

def dcontains (d : Dict) (k : String) : Bool :=
  (dlookup d k).isSome

/-- Assignment `d[k] = v`: replace in place if the key exists, else append. -/
def dinsert : Dict → String → Value → Dict
  | [], k, v => [(k, v)]
  | (k2, v2) :: rest, k, v =>
    if k2 = k then (k2, v) :: rest else (k2, v2) :: dinsert rest k v

def derase : Dict → String → Dict
  | [], _ => []
  | (k2, v2) :: rest, k => if k2 = k then rest else (k2, v2) :: derase rest k

/-- Python `d.pop(k, dflt)`: the removed value (or the default) and the
remaining dict. -/
def dpop (d : Dict) (k : String) (dflt : Value) : Value × Dict :=
  match dlookup d k with
  | some v => (v, derase d k)
  | none => (dflt, d)

/-- Errors surfacing from the pipeline.  `plistError` covers both variants
raised by `Entry.__init__` (unreadable file, invalid embedded ISO date);
`keyError` is Python's KeyError with the missing key; `nameError` is the
NameError/UnboundLocalError raised when a local variable is read before
assignment; `typeError` covers TypeError/AttributeError from operating on
a value of the wrong shape; `emptyJournal` is the generic Exception raised
for a journal with no entries. -/
inductive Err where
  | plistError
  | keyError (k : String)
  | nameError
  | typeError
  | emptyJournal
deriving DecidableEq, Repr

/-- Result of `plistlib.readPlist` on one entry file: an IO failure, the
AttributeError produced by an invalid ISO 8601 date (issue 25), or the
decoded dictionary. -/
inductive RawSource where
  | ioError
  | isoDateError
  | plist (d : Dict)
deriving DecidableEq, Repr

/-- An export folder: the directory listing of `entries/` (filename plus
what reading that file yields, in listdir order) and the listing of
`photos/` (`none` models the OSError when the directory is missing). -/
structure Folder where
  entries : List (String × RawSource)
  photos : Option (List String)
deriving DecidableEq, Repr

/-- Index of the last '.' in a character list, if any. -/
def lastDotIdx : List Char → Option Nat
  | [] => none
  | c :: rest =>
    match lastDotIdx rest with
    | some i => some (i + 1)
    | none => if c = '.' then some 0 else none

/-- Python `os.path.splitext` for a bare filename: split at the last dot,
except that leading dots of the name do not start an extension. -/
def splitext (s : String) : String × String :=
  let cs := s.toList
  match lastDotIdx cs with
  | none => (s, "")
  | some i =>
    if (cs.take i).all (fun c => c = '.') then (s, "")
    else (String.mk (cs.take i), String.mk (cs.drop i))

/-- First-match lookup inside a nested sub-record. -/
def slookup : List (String × Scalar) → String → Option Scalar
  | [], _ => none
  | (k2, v) :: rest, k => if k2 = k then some v else slookup rest k

/-- Merge step of the flattening in `Entry.__init__`:
`self.data.update((k, v) for k, v in sub.items() if k not in self.data)`.
The generator is consumed pairwise by `update`, so each absence check sees
the dict as already extended by the earlier pairs. -/
def updateNoOverwrite (d : Dict) (sub : List (String × Scalar)) : Dict :=
  sub.foldl
    (fun acc kv =>
      if dcontains acc kv.1 then acc else dinsert acc kv.1 (Value.ofScalar kv.2))
    d

/-- One iteration of the flattening loop for a key in
Location/Weather/Music/Creator: absent keys are skipped; a present value
must be a mapping or `.items()` raises. -/
def flattenStep (d : Dict) (key : String) : Except Err Dict :=
  match dlookup d key with
  | none => .ok d
  | some (.sub s) => .ok (updateNoOverwrite d s)
  | some _ => .error .typeError

def flattenLoop : Dict → List String → Except Err Dict
  | d, [] => .ok d
  | d, key :: rest =>
    match flattenStep d key with
    | .ok d2 => flattenLoop d2 rest
    | .error e => .error e

/-- Embedding of `Entry.__init__`: decode the plist, require the
"Creation Date" key, rename "Entry Text" to "Text" (default empty string),
then flatten the four known sub-records without overwriting existing
top-level keys. -/
def Entry.init (raw : RawSource) : Except Err Dict :=
  match raw with
  | .ioError => .error .plistError
  | .isoDateError => .error .plistError
  | .plist d =>
    if dcontains d "Creation Date" then
      let p := dpop d "Entry Text" (.str "")
      let d2 := dinsert p.2 "Text" p.1
      flattenLoop d2 ["Location", "Weather", "Music", "Creator"]
    else .error (.keyError "Creation Date")

/-- Fixed UTC offsets (seconds east) for the timezone identifiers known to
the model; `none` models `pytz.UnknownTimeZoneError`.  `pytz.timezone`
accepts any capitalization of "UTC". -/
def tzOffset : String → Option Int
  | "utc" => some 0
  | "UTC" => some 0
  | "America/New_York" => some (-18000)
  | "America/Los_Angeles" => some (-28800)
  | "Europe/London" => some 0
  | "Europe/Paris" => some 3600
  | "Asia/Tokyo" => some 32400
  | _ => none

/-- Resolve a "Time Zone" value as `Entry.set_localized_date` does:
unknown identifiers fall back to UTC (offset 0); a non-string value makes
`pytz.timezone` raise. -/
def pytz_timezone : Value → Except Err Int
  | .str s => .ok ((tzOffset s).getD 0)
  | _ => .error .typeError

/-- Zone identifier attached to the localized date: the requested
identifier if known, else the UTC fallback zone. -/
def pytz_zone : Value → String
  | .str s => if (tzOffset s).isSome then s else "UTC"
  | _ => "UTC"

/-- Embedding of `Entry.set_time_zone`. -/
def Entry.set_time_zone (tzv : Value) (e : Dict) : Dict :=
  dinsert e "Time Zone" tzv

/-- Embedding of `Entry.set_photo`. -/
def Entry.set_photo (filename : String) (e : Dict) : Dict :=
  dinsert e "Photo" (.str filename)

/-- Embedding of `Entry.set_localized_date`: resolve the timezone (UTC
fallback for unknown identifiers), interpret the naive "Creation Date" as
UTC and convert it, storing the aware result under "Date". A missing
"Creation Date" raises KeyError; a non-datetime one makes
`pytz.utc.localize` raise. -/
def Entry.set_localized_date (tzv : Value) (e : Dict) : Except Err Dict :=
  match pytz_timezone tzv with
  | .error err => .error err
  | .ok off =>
    match dlookup e "Creation Date" with
    | some (.date w) => .ok (dinsert e "Date" (.adate (w + off) (pytz_zone tzv)))
    | some _ => .error .typeError
    | none => .error (.keyError "Creation Date")

/-- The journal accumulator of `parse_journal`: a Python dict keyed by the
entries' "UUID" values. -/
abbrev JMap := List (Value × Dict)

def jinsert : JMap → Value → Dict → JMap
  | [], k, e => [(k, e)]
  | (k2, e2) :: rest, k, e =>
    if k2 = k then (k2, e) :: rest else (k2, e2) :: jinsert rest k e

/-- Apply `f` to the entry stored under `k`; a missing key leaves the map
unchanged (the caller's `except KeyError: pass`). -/
def jmodify : JMap → Value → (Dict → Dict) → JMap
  | [], _, _ => []
  | (k2, e2) :: rest, k, f =>
    if k2 = k then (k2, f e2) :: rest else (k2, e2) :: jmodify rest k f

/-- One iteration of the entry-discovery loop of `parse_journal`.  The
state is the journal dict plus the current value of the loop-local
variable `entry` (`none` before its first assignment).  `except KeyError:
pass` swallows the missing-creation-date failure, but the following
`journal[entry.UUID] = entry` still runs on the stale binding: with no
prior successful entry it raises NameError. -/
def discoverStep (st : JMap × Option Dict) (file : String × RawSource) :
    Except Err (JMap × Option Dict) :=
  if (splitext file.1).2 = ".doentry" then
    match
      (match Entry.init file.2 with
       | .ok e => .ok (some e)
       | .error (.keyError k) => .ok st.2
       | .error err => .error err : Except Err (Option Dict))
    with
    | .error err => .error err
    | .ok none => .error .nameError
    | .ok (some e) =>
      match dlookup e "UUID" with
      | none => .error (.keyError "UUID")
      | some u => .ok (jinsert st.1 u e, some e)
  else .ok st

def discoverLoop (st : JMap × Option Dict) :
    List (String × RawSource) → Except Err (JMap × Option Dict)
  | [] => .ok st
  | file :: rest =>
    match discoverStep st file with
    | .ok st2 => discoverLoop st2 rest
    | .error e => .error e

/-- Photo correlation: each asset attaches (as "photos/" ++ name) to the
entry whose UUID equals the asset's base filename; unmatched assets are
skipped. -/
def attachPhotos (journal : JMap) (photos : List String) : JMap :=
  photos.foldl
    (fun m filename =>
      jmodify m (.str (splitext filename).1)
        (Entry.set_photo ("photos/" ++ filename)))
    journal

/-- Creation timestamp used as the sort key (`itemgetter "Creation Date"`);
entries reaching the sort always carry the key. -/
def cDate (e : Dict) : Int :=
  match dlookup e "Creation Date" with
  | some (.date w) => w
  | _ => 0

def dictLE (a b : Dict) : Prop := cDate a ≤ cDate b

instance : DecidableRel dictLE := fun a b => Int.decLe _ _

instance : IsTotal Dict dictLE := ⟨fun a b => Int.le_total _ _⟩

instance : IsTrans Dict dictLE := ⟨fun _ _ _ h1 h2 => le_trans h1 h2⟩

/-- The `journal.sort(key=itemgetter('Creation Date'))` step.  Python's
sort is stable; a stable sort by a key is unique, so insertion sort keyed
the same way computes the identical list. -/
def sortJournal (l : List Dict) : List Dict :=
  List.insertionSort dictLE l

/-- Whether an entry declares its own timezone. -/
def declaresTz (e : Dict) : Bool := dcontains e "Time Zone"

/-- Declared timezone value of an entry (only read when one is present). -/
def tzValOf (e : Dict) : Value := (dlookup e "Time Zone").getD (.str "utc")

/-- Current-timezone update of the back-fill walk: a declared timezone
replaces the running value. -/
def updTz (tz : Value) (e : Dict) : Value :=
  if declaresTz e then tzValOf e else tz

/-- Timezone of the most recent entry that declares one, defaulting to
'utc' (the first loop of the back-fill, with its break). -/
def newest_tz (js : List Dict) : Value :=
  match js.reverse.find? declaresTz with
  | some e => tzValOf e
  | none => .str "utc"

/-- The back-fill walk over the journal in reversed (latest-first) order:
an entry declaring a timezone updates the running value, any other entry
is assigned the running value, and every entry gets its localized date. -/
def backfillRev (tz : Value) : List Dict → Except Err (List Dict)
  | [] => .ok []
  | e :: rest =>
    match Entry.set_localized_date (updTz tz e)
        (if declaresTz e then e else Entry.set_time_zone tz e) with
    | .error err => .error err
    | .ok e3 =>
      match backfillRev (updTz tz e) rest with
      | .error err => .error err
      | .ok out => .ok (e3 :: out)

/-- Timezone back-fill over the date-sorted journal (lines 199-214 of the
source): walk latest-to-earliest starting from `newest_tz`, then restore
the chronological order. -/
def backfill (js : List Dict) : Except Err (List Dict) :=
  match backfillRev (newest_tz js) js.reverse with
  | .ok out => .ok out.reverse
  | .error e => .error e

/-- Embedding of `parse_journal`: discover `.doentry` files, key the
surviving entries by UUID, fail on an empty journal, correlate photos,
sort by creation date, and back-fill timezones. -/
def parse_journal (f : Folder) : Except Err (List Dict) :=
  match discoverLoop ([], none) f.entries with
  | .error e => .error e
  | .ok (journal, _) =>
    if journal.length = 0 then .error .emptyJournal
    else
      let journal2 :=
        match f.photos with
        | none => journal
        | some photos => attachPhotos journal photos
      backfill (sortJournal (journal2.map (fun kv => kv.2)))

/-- The `tags` argument of the export: either the sentinel string "any" or
a list of tags. -/
inductive TagsOpt where
  | any
  | given (l : List String)
deriving DecidableEq, Repr

/-- Tag list of an entry, as read by the tag filters. -/
def entryTags (e : Dict) : List String :=
  match dlookup e "Tags" with
  | some (.tags l) => l
  | _ => []

/-- Embedding of `_filter_by_tag`: with the sentinel "any", keep entries
with a "Tags" key; otherwise keep entries whose tag set meets the given
set (a nonempty intersection is truthy). -/
def _filter_by_tag (journal : List Dict) (tags : TagsOpt) : List Dict :=
  match tags with
  | .any => journal.filter (fun item => dcontains item "Tags")
  | .given ts =>
    journal.filter
      (fun item => dcontains item "Tags" && (entryTags item).any (fun t => ts.contains t))

/-- Embedding of `_exclude_tags`. -/
def _exclude_tags (journal : List Dict) (ts : List String) : List Dict :=
  journal.filter
    (fun item => !(dcontains item "Tags" && (entryTags item).any (fun t => ts.contains t)))

/-- Embedding of `_filter_by_date` over naive UTC bounds: `after` is
inclusive, `before` exclusive. -/
def _filter_by_date (journal : List Dict) (after before : Option Int) : List Dict :=
  match after, before with
  | none, none => journal
  | _, _ =>
    journal.filter
      (fun item =>
        (match after with | none => true | some a => decide (a ≤ cDate item)) &&
        (match before with | none => true | some b => decide (cDate item < b)))

/-- A Python datetime as passed for the `after`/`before` bounds: a wall
clock (seconds) plus an optional fixed UTC offset; `none` is a naive
datetime. -/
structure PyDT where
  wall : Int
  tz : Option Int
deriving DecidableEq, Repr

/-- Python `tz.localize(d)`: attach the zone, keep the wall clock. -/
def PyDT.localize (off : Int) (d : PyDT) : PyDT := ⟨d.wall, some off⟩

/-- Python `d.astimezone(pytz.utc)`: shift the wall clock to UTC. -/
def PyDT.astimezoneUtc (d : PyDT) : PyDT :=
  match d.tz with
  | some off => ⟨d.wall - off, some 0⟩
  | none => ⟨d.wall, some 0⟩

/-- Python `d.replace(tzinfo=None)`. -/
def PyDT.replaceTzNone (d : PyDT) : PyDT := ⟨d.wall, none⟩

/-- Embedding of `_convert_to_utc`.  The source computes
`date.astimezone(pytz.utc)` as a bare expression statement and never binds
the result, so the conversion has no effect on what is returned; the
binding `_converted` mirrors that discarded computation. -/
def _convert_to_utc (date : Option PyDT) (default_tz : Int) : Option PyDT :=
  match date with
  | none => none
  | some d =>
    let d2 := if d.tz.isNone then PyDT.localize default_tz d else d
    let _converted := PyDT.astimezoneUtc d2
    some (PyDT.replaceTzNone d2)

/-- UTC wall clock of the instant whose local wall clock in a timezone
with UTC offset `off` is `wall` — the conversion `_convert_to_utc` is
documented to perform. -/
def utcWallOfLocal (wall off : Int) : Int := wall - off

/-- Two-digit zero padding for strftime fields. -/
def pad2 (n : Int) : String :=
  let s := toString n
  if s.length < 2 then "0" ++ s else s

/-- Proleptic Gregorian date (year, month, day) of a day count from the
Unix epoch (standard civil-from-days computation). -/
def civilFromDays (z0 : Int) : Int × Int × Int :=
  let z := z0 + 719468
  let era := if 0 ≤ z then z / 146097 else (z - 146096) / 146097
  let doe := z - era * 146097
  let yoe := (doe - doe / 1460 + doe / 36524 - doe / 146096) / 365
  let y := yoe + era * 400
  let doy := doe - (365 * yoe + yoe / 4 - yoe / 100)
  let mp := (5 * doy + 2) / 153
  let d := doy - (153 * mp + 2) / 5 + 1
  let m := mp + (if mp < 10 then 3 else -9)
  (y + (if m ≤ 2 then 1 else 0), m, d)

/-- Expansion of one strftime directive for an aware datetime with local
wall clock `wall` (seconds) and zone identifier `zone`.  Directives
outside the supported set pass through literally, as glibc does. -/
def formatCode (c : Char) (wall : Int) (zone : String) : String :=
  let days := if 0 ≤ wall then wall / 86400 else (wall - 86399) / 86400
  let secs := wall - days * 86400
  let ymd := civilFromDays days
  match c with
  | 'Y' => toString ymd.1
  | 'm' => pad2 ymd.2.1
  | 'd' => pad2 ymd.2.2
  | 'H' => pad2 (secs / 3600)
  | 'M' => pad2 (secs % 3600 / 60)
  | 'S' => pad2 (secs % 60)
  | 'Z' => zone
  | '%' => "%"
  | other => "%" ++ String.mk [other]

def strftimeAux : List Char → Int → String → String
  | [], _, _ => ""
  | '%' :: c :: rest, wall, zone => formatCode c wall zone ++ strftimeAux rest wall zone
  | '%' :: [], _, _ => "%"
  | c :: rest, wall, zone => String.mk [c] ++ strftimeAux rest wall zone

/-- Python `d.strftime(fmt)` for an aware datetime. -/
def strftime (fmt : String) (wall : Int) (zone : String) : String :=
  strftimeAux fmt.toList wall zone

/-- Append an entry to its key's bucket, creating the bucket at the end on
first encounter (`defaultdict(list)` iterated in key-insertion order). -/
def addToGroup (gs : List (String × List Dict)) (k : String) (e : Dict) :
    List (String × List Dict) :=
  match gs with
  | [] => [(k, [e])]
  | (k2, es) :: rest =>
    if k2 = k then (k2, es ++ [e]) :: rest else (k2, es) :: addToGroup rest k e

/-- Grouping key of one entry: its localized date formatted with the
filename template.  A missing "Date" key raises KeyError; a value without
a strftime method raises AttributeError. -/
def groupStep (tmpl : String) (gs : List (String × List Dict)) (e : Dict) :
    Except Err (List (String × List Dict)) :=
  match dlookup e "Date" with
  | some (.adate w z) => .ok (addToGroup gs (strftime tmpl w z) e)
  | some _ => .error .typeError
  | none => .error (.keyError "Date")

def groupLoop (tmpl : String) (gs : List (String × List Dict)) :
    List Dict → Except Err (List (String × List Dict))
  | [] => .ok gs
  | e :: rest =>
    match groupStep tmpl gs e with
    | .ok gs2 => groupLoop tmpl gs2 rest
    | .error err => .error err

/-- The output grouping of `dayone_export` (lines 385-391): bucket the
filtered journal by formatted localized date, then yield each key with the
rendering of its bucket.  The template renderer is an external
collaborator, abstracted as `render`. -/
def outputPairs (filename_template : String) (render : List Dict → String)
    (j : List Dict) : Except Err (List (String × String)) :=
  match groupLoop filename_template [] j with
  | .ok gs => .ok (gs.map (fun kg => (kg.1, render kg.2)))
  | .error err => .error err

/-! Helper lemmas about the dictionary model. -/

theorem dlookup_dinsert_self (d : Dict) (k : String) (v : Value) :
    dlookup (dinsert d k v) k = some v := by
  induction d with
  | nil => simp [dinsert, dlookup]
  | cons kv rest ih =>
    obtain ⟨k2, v2⟩ := kv
    by_cases h : k2 = k <;> simp [dinsert, dlookup, h, ih]

theorem dlookup_dinsert_ne (d : Dict) (k k2 : String) (v : Value) (h : k2 ≠ k) :
    dlookup (dinsert d k2 v) k = dlookup d k := by
  induction d with
  | nil => simp [dinsert, dlookup, h]
  | cons kv rest ih =>
    obtain ⟨k3, v3⟩ := kv
    by_cases h3 : k3 = k2
    · subst h3
      simp [dinsert, dlookup, h]
    · by_cases h4 : k3 = k <;> simp [dinsert, dlookup, h3, h4, Ne.symm h, ih]

theorem dcontains_dinsert_self (d : Dict) (k : String) (v : Value) :
    dcontains (dinsert d k v) k = true := by
  simp [dcontains, dlookup_dinsert_self]

theorem dcontains_dinsert_ne (d : Dict) (k k2 : String) (v : Value) (h : k2 ≠ k) :
    dcontains (dinsert d k2 v) k = dcontains d k := by
  simp [dcontains, dlookup_dinsert_ne d k k2 v h]

theorem dcontains_eq_false_iff (d : Dict) (k : String) :
    dcontains d k = false ↔ dlookup d k = none := by
  cases h : dlookup d k <;> simp [dcontains, h]

theorem dlookup_of_dcontains (d : Dict) (k : String) (h : dcontains d k = true) :
    dlookup d k = some ((dlookup d k).getD (.str "utc")) := by
  cases hl : dlookup d k with
  | none => rw [dcontains, hl] at h; simp at h
  | some v => rfl

theorem updateNoOverwrite_cons (d : Dict) (k1 : String) (v1 : Scalar)
    (rest : List (String × Scalar)) :
    updateNoOverwrite d ((k1, v1) :: rest) =
      updateNoOverwrite
        (if dcontains d k1 then d else dinsert d k1 (Value.ofScalar v1)) rest := by
  by_cases h : dcontains d k1 <;> simp [updateNoOverwrite, h]

theorem dlookup_updateNoOverwrite (sub : List (String × Scalar)) (d : Dict) (k : String) :
    dlookup (updateNoOverwrite d sub) k =
      match dlookup d k with
      | some v => some v
      | none => Option.map Value.ofScalar (slookup sub k) := by
  induction sub generalizing d with
  | nil =>
    cases h : dlookup d k <;> simp [updateNoOverwrite, slookup, h]
  | cons kv rest ih =>
    obtain ⟨k1, v1⟩ := kv
    rw [updateNoOverwrite_cons, ih]
    by_cases hc : dcontains d k1
    · rw [if_pos hc]
      by_cases hk : k1 = k
      · subst hk
        cases hl : dlookup d k1 with
        | none => rw [dcontains, hl] at hc; simp at hc
        | some v => simp [hl]
      · cases hl : dlookup d k <;> simp [hl, slookup, hk]
    · rw [if_neg hc]
      by_cases hk : k1 = k
      · subst hk
        have hl : dlookup d k1 = none := (dcontains_eq_false_iff d k1).mp (by simpa using hc)
        simp [hl, dlookup_dinsert_self, slookup]
      · rw [dlookup_dinsert_ne d k k1 (Value.ofScalar v1) hk]
        cases hl : dlookup d k <;> simp [hl, slookup, hk]

/-- C7. When a nested sub-record is merged into the top-level mapping,
every key already present at top level keeps its top-level value, and the
only change to the mapping is the addition of the sub-record's keys that
were absent at top level (with their sub-record values). -/
theorem c7_flatten_no_overwrite (d : Dict) (sub : List (String × Scalar)) (k : String) :
    (dcontains d k = true → dlookup (updateNoOverwrite d sub) k = dlookup d k) ∧
    dlookup (updateNoOverwrite d sub) k =
      (match dlookup d k with
       | some v => some v
       | none => Option.map Value.ofScalar (slookup sub k)) := by
  refine ⟨fun hc => ?_, dlookup_updateNoOverwrite sub d k⟩
  rw [dlookup_updateNoOverwrite sub d k]
  cases hl : dlookup d k with
  | none => rw [dcontains, hl] at hc; simp at hc
  | some v => rfl

/-- Witness for C7 at the spec's own example: a top-level "Country" beats
the nested location's "Country", while the absent "Locality" is merged in. -/
theorem c7_flatten_no_overwrite_witness :
    dlookup
        (updateNoOverwrite
          [("Country", Value.str "US"), ("Creation Date", Value.date 0)]
          [("Country", Scalar.s "France"), ("Locality", Scalar.s "Paris")])
        "Country" = some (Value.str "US") :=
  (c7_flatten_no_overwrite
      [("Country", Value.str "US"), ("Creation Date", Value.date 0)]
      [("Country", Scalar.s "France"), ("Locality", Scalar.s "Paris")]
      "Country").1 (by decide)

/-- C4 counterexample: an entry whose tag list is present but empty is kept
by the sentinel-"any" filter, while the claim's reading (at least one tag)
would drop it. -/
theorem c4_any_counterexample :
    _filter_by_tag [[("Tags", Value.tags [])]] TagsOpt.any ≠
      List.filter (fun e => !(entryTags e).isEmpty) [[("Tags", Value.tags [])]] := by
  decide

/-- C4 as amended: with the sentinel "any", the result is exactly the
subsequence of entries whose "Tags" key is present, regardless of whether
the tag list is empty. -/
theorem c4_any_keeps_tagged (journal : List Dict) :
    (_filter_by_tag journal TagsOpt.any).Sublist journal ∧
    ∀ e, e ∈ _filter_by_tag journal TagsOpt.any ↔ e ∈ journal ∧ dcontains e "Tags" = true := by
  constructor
  · exact List.filter_sublist journal
  · intro e
    simp [_filter_by_tag, List.mem_filter]

/-- C2. The conversion `_convert_to_utc` documents never happens: the
`astimezone` result is discarded, so a naive bound comes back with its
wall clock unchanged.  At noon local time in a zone 5 hours west of UTC
the function returns noon, whereas the equivalent UTC wall clock is 17:00. -/
theorem c2_convert_to_utc_is_noop :
    (∀ w off : Int, _convert_to_utc (some ⟨w, none⟩) off = some ⟨w, none⟩) ∧
    _convert_to_utc (some ⟨43200, none⟩) (-18000) = some ⟨43200, none⟩ ∧
    utcWallOfLocal 43200 (-18000) = 61200 :=
  ⟨fun _ _ => rfl, rfl, rfl⟩

/-- C3. A missing "Creation Date" is only dropped silently when an earlier
file already parsed: the assignment `journal[entry.UUID] = entry` sits
outside the try block, so if the first `.doentry` file fails, the loop
variable is unbound and a NameError aborts assembly.  A later failing file
is dropped (the previous entry is harmlessly re-inserted), and a plist
decoding failure propagates from any position. -/
theorem c3_first_entry_name_error :
    parse_journal
        ⟨[("bad.doentry", .plist [("UUID", Value.str "ux")]),
          ("good.doentry", .plist [("Creation Date", Value.date 0), ("UUID", Value.str "u1")])],
         none⟩ = .error .nameError ∧
    parse_journal
        ⟨[("good.doentry", .plist [("Creation Date", Value.date 0), ("UUID", Value.str "u1")]),
          ("bad.doentry", .plist [("UUID", Value.str "ux")])],
         none⟩ =
      .ok [[("Creation Date", Value.date 0), ("UUID", Value.str "u1"),
            ("Text", Value.str ""), ("Time Zone", Value.str "utc"),
            ("Date", Value.adate 0 "utc")]] ∧
    parse_journal ⟨[("corrupt.doentry", .ioError)], none⟩ = .error .plistError :=
  ⟨rfl, rfl, rfl⟩

/-- C8. A folder with no entry sources does raise the empty-journal error,
but a folder whose entry sources all fail normalization aborts earlier
with the NameError of C3, not with EmptyJournal. -/
theorem c8_empty_journal_cases :
    parse_journal ⟨[], none⟩ = .error .emptyJournal ∧
    parse_journal
        ⟨[("notes.txt", .plist [("Creation Date", Value.date 0), ("UUID", Value.str "u1")])],
         none⟩ = .error .emptyJournal ∧
    parse_journal ⟨[("only.doentry", .plist [("UUID", Value.str "uy")])], none⟩ =
      .error .nameError :=
  ⟨rfl, rfl, rfl⟩

theorem discoverStep_skip (st : JMap × Option Dict) (name : String) (c : RawSource)
    (h : (splitext name).2 ≠ ".doentry") :
    discoverStep st (name, c) = .ok st := by
  simp [discoverStep, h]

theorem discoverLoop_append (st : JMap × Option Dict)
    (l1 l2 : List (String × RawSource)) :
    discoverLoop st (l1 ++ l2) =
      match discoverLoop st l1 with
      | .ok st2 => discoverLoop st2 l2
      | .error e => .error e := by
  induction l1 generalizing st with
  | nil => simp [discoverLoop]
  | cons f rest ih =>
    rw [List.cons_append]
    show (match discoverStep st f with
          | .ok st2 => discoverLoop st2 (rest ++ l2)
          | .error e => .error e) = _
    cases hs : discoverStep st f with
    | error e => simp [discoverLoop, hs]
    | ok st2 => simp [discoverLoop, hs, ih]

/-- C10. A file in the entries directory whose extension is not exactly
".doentry" is skipped by discovery: removing it from the listing leaves
the assembled journal unchanged, wherever it occurs. -/
theorem c10_non_doentry_ignored (pre post : List (String × RawSource))
    (name : String) (c : RawSource) (ph : Option (List String))
    (h : (splitext name).2 ≠ ".doentry") :
    parse_journal ⟨pre ++ (name, c) :: post, ph⟩ = parse_journal ⟨pre ++ post, ph⟩ := by
  have key : discoverLoop ([], none) (pre ++ (name, c) :: post) =
      discoverLoop ([], none) (pre ++ post) := by
    rw [discoverLoop_append, discoverLoop_append]
    cases hd : discoverLoop ([], none) pre with
    | error e => rfl
    | ok st2 =>
      show discoverLoop st2 ((name, c) :: post) = discoverLoop st2 post
      show (match discoverStep st2 (name, c) with
            | .ok st3 => discoverLoop st3 post
            | .error e => .error e) = _
      rw [discoverStep_skip st2 name c h]
  unfold parse_journal
  rw [key]

/-- Witness for C10: a stray photo dropped into the entries directory
contributes nothing. -/
theorem c10_non_doentry_ignored_witness :
    parse_journal
        ⟨[("good.doentry", .plist [("Creation Date", Value.date 5), ("UUID", Value.str "u9")]),
          ("stray.jpg", .plist [("Creation Date", Value.date 6), ("UUID", Value.str "u8")])],
         none⟩ =
      parse_journal
        ⟨[("good.doentry", .plist [("Creation Date", Value.date 5), ("UUID", Value.str "u9")])],
         none⟩ :=
  c10_non_doentry_ignored
    [("good.doentry", .plist [("Creation Date", Value.date 5), ("UUID", Value.str "u9")])]
    [] "stray.jpg" (.plist [("Creation Date", Value.date 6), ("UUID", Value.str "u8")])
    none (by decide)

/-- Entries whose "Date" key holds an aware datetime, as the grouping loop
requires. -/
def hasDateOk (e : Dict) : Bool :=
  match dlookup e "Date" with
  | some (.adate _ _) => true
  | _ => false

theorem addToGroup_single (acc : List Dict) (k : String) (e : Dict) :
    addToGroup [(k, acc)] k e = [(k, acc ++ [e])] := by
  simp [addToGroup]

theorem groupLoop_empty_template (j : List Dict) (acc : List Dict)
    (h : ∀ e ∈ j, hasDateOk e = true) :
    groupLoop "" [("", acc)] j = .ok [("", acc ++ j)] := by
  induction j generalizing acc with
  | nil => simp [groupLoop]
  | cons e rest ih =>
    have he : hasDateOk e = true := h e (List.mem_cons_self e rest)
    obtain ⟨w, z, hwz⟩ : ∃ w z, dlookup e "Date" = some (.adate w z) := by
      unfold hasDateOk at he
      cases hd : dlookup e "Date" with
      | none => rw [hd] at he; simp at he
      | some v =>
        cases v <;> rw [hd] at he <;> simp at he
        exact ⟨_, _, rfl⟩
    show (match groupStep "" [("", acc)] e with
          | .ok gs2 => groupLoop "" gs2 rest
          | .error err => .error err) = _
    rw [groupStep, hwz]
    show groupLoop "" (addToGroup [("", acc)] (strftime "" w z) e) rest = _
    have hstr : strftime "" w z = "" := rfl
    rw [hstr, addToGroup_single,
        ih (acc ++ [e]) (fun x hx => h x (List.mem_cons_of_mem e hx))]
    simp

/-- C9. With an empty filename template every entry receives the empty
grouping key, so the output grouper yields exactly one pair: the empty key
together with the rendering of the whole (already filtered, ordered and
possibly reversed) journal. -/
theorem c9_empty_template_single_group (render : List Dict → String)
    (j : List Dict) (hne : j ≠ [])
    (hdates : ∀ e ∈ j, hasDateOk e = true) :
    outputPairs "" render j = .ok [("", render j)] := by
  cases j with
  | nil => exact absurd rfl hne
  | cons e rest =>
    have he : hasDateOk e = true := hdates e (List.mem_cons_self e rest)
    obtain ⟨w, z, hwz⟩ : ∃ w z, dlookup e "Date" = some (.adate w z) := by
      unfold hasDateOk at he
      cases hd : dlookup e "Date" with
      | none => rw [hd] at he; simp at he
      | some v =>
        cases v <;> rw [hd] at he <;> simp at he
        exact ⟨_, _, rfl⟩
    unfold outputPairs
    have hloop : groupLoop "" [] (e :: rest) = .ok [("", [e] ++ rest)] := by
      show (match groupStep "" [] e with
            | .ok gs2 => groupLoop "" gs2 rest
            | .error err => .error err) = _
      rw [groupStep, hwz]
      show groupLoop "" (addToGroup [] (strftime "" w z) e) rest = _
      have hstr : strftime "" w z = "" := rfl
      rw [hstr]
      show groupLoop "" [("", [e])] rest = _
      exact groupLoop_empty_template rest [e]
        (fun x hx => hdates x (List.mem_cons_of_mem e hx))
    rw [hloop]
    simp

/-- Witness for C9 on a two-entry journal with a length-rendering template. -/
theorem c9_empty_template_single_group_witness :
    outputPairs "" (fun g => toString g.length)
        [[("Creation Date", Value.date 100), ("Date", Value.adate 100 "utc")],
         [("Creation Date", Value.date 300), ("Date", Value.adate 300 "utc")]] =
      .ok [("", "2")] :=
  c9_empty_template_single_group (fun g => toString g.length)
    [[("Creation Date", Value.date 100), ("Date", Value.adate 100 "utc")],
     [("Creation Date", Value.date 300), ("Date", Value.adate 300 "utc")]]
    (by decide) (by decide)

theorem filter_orderedInsert_eq (k : Int) (a : Dict) (l : List Dict)
    (ha : cDate a = k) :
    (List.orderedInsert dictLE a l).filter (fun e => decide (cDate e = k)) =
      a :: l.filter (fun e => decide (cDate e = k)) := by
  induction l with
  | nil => simp [List.orderedInsert, List.filter, ha]
  | cons b t ih =>
    by_cases h : dictLE a b
    · simp [List.orderedInsert, h, List.filter, ha]
    · have hb : ¬cDate b = k := by
        have hlt : cDate b < cDate a := lt_of_not_le h
        omega
      simp [List.orderedInsert, h, List.filter, hb, ih]

theorem filter_orderedInsert_ne (k : Int) (a : Dict) (l : List Dict)
    (ha : ¬cDate a = k) :
    (List.orderedInsert dictLE a l).filter (fun e => decide (cDate e = k)) =
      l.filter (fun e => decide (cDate e = k)) := by
  induction l with
  | nil => simp [List.orderedInsert, List.filter, ha]
  | cons b t ih =>
    by_cases h : dictLE a b
    · simp [List.orderedInsert, h, List.filter, ha]
    · by_cases hb : cDate b = k <;>
        simp [List.orderedInsert, h, List.filter, hb, ih]

theorem filter_sortJournal (l : List Dict) (k : Int) :
    (sortJournal l).filter (fun e => decide (cDate e = k)) =
      l.filter (fun e => decide (cDate e = k)) := by
  induction l with
  | nil => rfl
  | cons a t ih =>
    unfold sortJournal at ih
    show (List.orderedInsert dictLE a (List.insertionSort dictLE t)).filter _ = _
    by_cases ha : cDate a = k
    · rw [filter_orderedInsert_eq k a _ ha]
      simp [List.filter, ha, ih]
    · rw [filter_orderedInsert_ne k a _ ha]
      simp [List.filter, ha, ih]

theorem set_localized_date_shape (tzv : Value) (e e3 : Dict)
    (h : Entry.set_localized_date tzv e = .ok e3) :
    ∃ v, e3 = dinsert e "Date" v := by
  unfold Entry.set_localized_date at h
  cases hz : pytz_timezone tzv with
  | error err => rw [hz] at h; exact absurd h (by simp)
  | ok off =>
    rw [hz] at h
    cases hc : dlookup e "Creation Date" with
    | none => rw [hc] at h; exact absurd h (by simp)
    | some v =>
      rw [hc] at h
      cases v <;> simp at h
      exact ⟨_, h.symm⟩

theorem cDate_dinsert_other (e : Dict) (k : String) (v : Value)
    (h : k ≠ "Creation Date") : cDate (dinsert e k v) = cDate e := by
  unfold cDate
  rw [dlookup_dinsert_ne e "Creation Date" k v h]

theorem backfillRev_map_cDate (tz : Value) (r out : List Dict)
    (h : backfillRev tz r = .ok out) : out.map cDate = r.map cDate := by
  induction r generalizing tz out with
  | nil =>
    unfold backfillRev at h
    cases h
    rfl
  | cons e rest ih =>
    unfold backfillRev at h
    cases hsd : Entry.set_localized_date (updTz tz e)
        (if declaresTz e then e else Entry.set_time_zone tz e) with
    | error err => rw [hsd] at h; exact absurd h (by simp)
    | ok e3 =>
      rw [hsd] at h
      cases hbf : backfillRev (updTz tz e) rest with
      | error err => rw [hbf] at h; exact absurd h (by simp)
      | ok out2 =>
        rw [hbf] at h
        have hout : out = e3 :: out2 := (Except.ok.inj h).symm
        subst hout
        have h3 : cDate e3 = cDate e := by
          obtain ⟨v, hv⟩ := set_localized_date_shape _ _ _ hsd
          subst hv
          rw [cDate_dinsert_other _ "Date" v (by decide)]
          by_cases hd : declaresTz e
          · rw [if_pos hd]
          · rw [if_neg hd]
            exact cDate_dinsert_other e "Time Zone" _ (by decide)
        simp [h3, ih _ _ hbf]

theorem backfill_map_cDate (js out : List Dict) (h : backfill js = .ok out) :
    out.map cDate = js.map cDate := by
  unfold backfill at h
  cases hbf : backfillRev (newest_tz js) js.reverse with
  | error e => rw [hbf] at h; exact absurd h (by simp)
  | ok rout =>
    rw [hbf] at h
    have hout : out = rout.reverse := (Except.ok.inj h).symm
    subst hout
    rw [List.map_reverse, backfillRev_map_cDate _ _ _ hbf, List.map_reverse,
        List.reverse_reverse]

/-- C5. The sort step is sorted and stable: sorting by creation timestamp
produces a non-decreasing sequence, entries with any given timestamp keep
their pre-sort relative order, and a successfully assembled journal is
non-decreasing in creation timestamp. -/
theorem c5_sorted_stable :
    (∀ l : List Dict,
        List.Sorted dictLE (sortJournal l) ∧
        ∀ k : Int,
          (sortJournal l).filter (fun e => decide (cDate e = k)) =
            l.filter (fun e => decide (cDate e = k))) ∧
    ∀ (f : Folder) (js : List Dict), parse_journal f = .ok js →
      (js.map cDate).Sorted (fun a b => a ≤ b) := by
  constructor
  · intro l
    exact ⟨List.sorted_insertionSort dictLE l, filter_sortJournal l⟩
  · intro f js h
    unfold parse_journal at h
    cases hd : discoverLoop ([], none) f.entries with
    | error e => rw [hd] at h; exact absurd h (by simp)
    | ok st =>
      obtain ⟨journal, last⟩ := st
      rw [hd] at h
      dsimp only at h
      by_cases hlen : journal.length = 0
      · rw [if_pos hlen] at h; exact absurd h (by simp)
      · rw [if_neg hlen] at h
        rw [backfill_map_cDate _ _ h]
        exact List.pairwise_map.mpr (List.sorted_insertionSort dictLE _)

/-- Witness for C5 on a concrete two-entry folder listed out of order. -/
theorem c5_sorted_stable_witness :
    (([[("Creation Date", Value.date 300), ("UUID", Value.str "u2"),
        ("Text", Value.str ""), ("Time Zone", Value.str "utc"),
        ("Date", Value.adate 300 "utc")],
       [("Creation Date", Value.date 500), ("UUID", Value.str "u1"),
        ("Text", Value.str ""), ("Time Zone", Value.str "utc"),
        ("Date", Value.adate 500 "utc")]] : List Dict).map cDate).Sorted
      (fun a b => a ≤ b) :=
  c5_sorted_stable.2
    ⟨[("late.doentry", .plist [("Creation Date", Value.date 500), ("UUID", Value.str "u1")]),
      ("early.doentry", .plist [("Creation Date", Value.date 300), ("UUID", Value.str "u2")])],
     none⟩
    [[("Creation Date", Value.date 300), ("UUID", Value.str "u2"),
      ("Text", Value.str ""), ("Time Zone", Value.str "utc"),
      ("Date", Value.adate 300 "utc")],
     [("Creation Date", Value.date 500), ("UUID", Value.str "u1"),
      ("Text", Value.str ""), ("Time Zone", Value.str "utc"),
      ("Date", Value.adate 500 "utc")]]
    rfl

theorem dcontains_set_localized_date (tzv : Value) (e e3 : Dict)
    (h : Entry.set_localized_date tzv e = .ok e3) :
    dcontains e3 "Date" = true ∧
    dcontains e3 "Time Zone" = dcontains e "Time Zone" := by
  obtain ⟨v, hv⟩ := set_localized_date_shape tzv e e3 h
  subst hv
  exact ⟨dcontains_dinsert_self e "Date" v,
    dcontains_dinsert_ne e "Time Zone" "Date" v (by decide)⟩

theorem backfillRev_keys (tz : Value) (r out : List Dict)
    (h : backfillRev tz r = .ok out) :
    ∀ e3 ∈ out, dcontains e3 "Time Zone" = true ∧ dcontains e3 "Date" = true := by
  induction r generalizing tz out with
  | nil =>
    unfold backfillRev at h
    cases h
    intro e3 he3
    exact absurd he3 (List.not_mem_nil e3)
  | cons e rest ih =>
    unfold backfillRev at h
    cases hsd : Entry.set_localized_date (updTz tz e)
        (if declaresTz e then e else Entry.set_time_zone tz e) with
    | error err => rw [hsd] at h; exact absurd h (by simp)
    | ok e3 =>
      rw [hsd] at h
      cases hbf : backfillRev (updTz tz e) rest with
      | error err => rw [hbf] at h; exact absurd h (by simp)
      | ok out2 =>
        rw [hbf] at h
        have hout : out = e3 :: out2 := (Except.ok.inj h).symm
        subst hout
        intro x hx
        rcases List.mem_cons.mp hx with hx1 | hx2
        · subst hx1
          obtain ⟨hdate, htzeq⟩ := dcontains_set_localized_date _ _ _ hsd
          refine ⟨?_, hdate⟩
          rw [htzeq]
          by_cases hd : declaresTz e
          · rw [if_pos hd]
            exact hd
          · rw [if_neg hd]
            exact dcontains_dinsert_self e "Time Zone" tz
        · exact ih _ _ hbf x hx2

/-- C6. After a successful assembly every entry of the journal carries
both an explicit "Time Zone" identifier and a localized "Date". -/
theorem c6_assembled_entries_have_tz_and_date (f : Folder) (js : List Dict)
    (h : parse_journal f = .ok js) :
    ∀ e ∈ js, dcontains e "Time Zone" = true ∧ dcontains e "Date" = true := by
  unfold parse_journal at h
  cases hd : discoverLoop ([], none) f.entries with
  | error e => rw [hd] at h; exact absurd h (by simp)
  | ok st =>
    obtain ⟨journal, last⟩ := st
    rw [hd] at h
    dsimp only at h
    by_cases hlen : journal.length = 0
    · rw [if_pos hlen] at h; exact absurd h (by simp)
    · rw [if_neg hlen] at h
      unfold backfill at h
      cases hbf : backfillRev
          (newest_tz (sortJournal (List.map (fun kv => kv.2)
            (match f.photos with
             | none => journal
             | some photos => attachPhotos journal photos))))
          (sortJournal (List.map (fun kv => kv.2)
            (match f.photos with
             | none => journal
             | some photos => attachPhotos journal photos))).reverse with
      | error err => rw [hbf] at h; exact absurd h (by simp)
      | ok rout =>
        rw [hbf] at h
        dsimp only at h
        have hjs : js = rout.reverse := (Except.ok.inj h).symm
        subst hjs
        intro e he
        exact backfillRev_keys _ _ _ hbf e (List.mem_reverse.mp he)

/-- Witness for C6 on a one-entry folder with no declared timezone. -/
theorem c6_assembled_entries_have_tz_and_date_witness :
    dcontains [("Creation Date", Value.date 0), ("UUID", Value.str "u1"),
               ("Text", Value.str ""), ("Time Zone", Value.str "utc"),
               ("Date", Value.adate 0 "utc")] "Time Zone" = true ∧
    dcontains [("Creation Date", Value.date 0), ("UUID", Value.str "u1"),
               ("Text", Value.str ""), ("Time Zone", Value.str "utc"),
               ("Date", Value.adate 0 "utc")] "Date" = true :=
  c6_assembled_entries_have_tz_and_date
    ⟨[("solo.doentry", .plist [("Creation Date", Value.date 0), ("UUID", Value.str "u1")])],
     none⟩
    [[("Creation Date", Value.date 0), ("UUID", Value.str "u1"),
      ("Text", Value.str ""), ("Time Zone", Value.str "utc"),
      ("Date", Value.adate 0 "utc")]]
    rfl
    [("Creation Date", Value.date 0), ("UUID", Value.str "u1"),
     ("Text", Value.str ""), ("Time Zone", Value.str "utc"),
     ("Date", Value.adate 0 "utc")]
    (List.mem_singleton.mpr rfl)

/-- Resolved timezone required by the spec for the entry at position `i` of
the date-sorted journal: the declaration of the nearest later-or-self
declaring entry; failing that (the entry lies after every declaration) the
timezone of the most recent declaring entry; 'utc' if no entry declares
one. -/
def specTzAt (js : List Dict) (i : Nat) : Value :=
  match (js.drop i).find? declaresTz with
  | some e => tzValOf e
  | none => newest_tz js

/-- Running timezone of the latest-to-earliest walk after processing a
prefix of the reversed journal. -/
def walkTz (tz : Value) (l : List Dict) : Value := l.foldl updTz tz

theorem walkTz_eq_find (tz : Value) (l : List Dict) :
    walkTz tz l =
      match l.reverse.find? declaresTz with
      | some e => tzValOf e
      | none => tz := by
  induction l generalizing tz with
  | nil => rfl
  | cons e t ih =>
    show walkTz (updTz tz e) t = _
    rw [ih, List.reverse_cons, List.find?_append]
    cases hf : t.reverse.find? declaresTz with
    | some d => simp
    | none =>
      unfold updTz
      by_cases hd : declaresTz e <;> simp [List.find?, hd]

theorem backfillRev_length (tz : Value) (r out : List Dict)
    (h : backfillRev tz r = .ok out) : out.length = r.length := by
  induction r generalizing tz out with
  | nil =>
    unfold backfillRev at h
    cases h
    rfl
  | cons e rest ih =>
    unfold backfillRev at h
    cases hsd : Entry.set_localized_date (updTz tz e)
        (if declaresTz e then e else Entry.set_time_zone tz e) with
    | error err => rw [hsd] at h; exact absurd h (by simp)
    | ok e3 =>
      rw [hsd] at h
      cases hbf : backfillRev (updTz tz e) rest with
      | error err => rw [hbf] at h; exact absurd h (by simp)
      | ok out2 =>
        rw [hbf] at h
        have hout : out = e3 :: out2 := (Except.ok.inj h).symm
        subst hout
        simp [ih _ _ hbf]

theorem backfillRev_lookup (tz : Value) (r out : List Dict)
    (h : backfillRev tz r = .ok out) :
    ∀ i, i < r.length →
      dlookup (out.getD i []) "Time Zone" = some (walkTz tz (r.take (i + 1))) := by
  induction r generalizing tz out with
  | nil =>
    intro i hi
    exact absurd hi (by simp)
  | cons e rest ih =>
    unfold backfillRev at h
    cases hsd : Entry.set_localized_date (updTz tz e)
        (if declaresTz e then e else Entry.set_time_zone tz e) with
    | error err => rw [hsd] at h; exact absurd h (by simp)
    | ok e3 =>
      rw [hsd] at h
      cases hbf : backfillRev (updTz tz e) rest with
      | error err => rw [hbf] at h; exact absurd h (by simp)
      | ok out2 =>
        rw [hbf] at h
        have hout : out = e3 :: out2 := (Except.ok.inj h).symm
        subst hout
        intro i hi
        cases i with
        | zero =>
          show dlookup e3 "Time Zone" = some (walkTz tz [e])
          obtain ⟨v, hv⟩ := set_localized_date_shape _ _ _ hsd
          subst hv
          rw [dlookup_dinsert_ne _ "Time Zone" "Date" v (by decide)]
          show _ = some (updTz tz e)
          unfold updTz
          by_cases hd : declaresTz e
          · rw [if_pos hd, if_pos hd]
            exact dlookup_of_dcontains e "Time Zone" hd
          · rw [if_neg hd, if_neg hd]
            exact dlookup_dinsert_self e "Time Zone" tz
        | succ i =>
          show dlookup (out2.getD i []) "Time Zone" =
            some (walkTz (updTz tz e) (rest.take (i + 1)))
          exact ih _ _ hbf i (Nat.succ_lt_succ_iff.mp hi)

/-- C1. After the back-fill over the date-sorted journal, the entry at
every position resolves to the timezone the spec prescribes: its own
declaration if it has one, otherwise the nearest later declaration,
otherwise the most recent declaration in the journal, otherwise UTC. -/
theorem c1_backfill_resolves_spec_tz (js out : List Dict)
    (h : backfill js = .ok out) (i : Nat) (hi : i < js.length) :
    dlookup (out.getD i []) "Time Zone" = some (specTzAt js i) := by
  unfold backfill at h
  cases hbf : backfillRev (newest_tz js) js.reverse with
  | error e => rw [hbf] at h; exact absurd h (by simp)
  | ok rout =>
    rw [hbf] at h
    dsimp only at h
    have hout : out = rout.reverse := (Except.ok.inj h).symm
    subst hout
    have hlen : rout.length = js.length := by
      rw [backfillRev_length _ _ _ hbf, List.length_reverse]
    have hi2 : i < rout.length := by omega
    rw [List.getD_eq_getElem?_getD, List.getElem?_reverse hi2,
        ← List.getD_eq_getElem?_getD]
    have hj : rout.length - 1 - i < js.reverse.length := by
      rw [List.length_reverse]; omega
    rw [backfillRev_lookup _ _ _ hbf (rout.length - 1 - i) hj]
    congr 1
    have harg : rout.length - 1 - i + 1 = js.length - i := by omega
    rw [harg]
    have h1 : (js.reverse.take (js.length - i)).reverse = js.drop i := by
      rw [List.reverse_take, List.reverse_reverse, List.length_reverse]
      congr 1
      omega
    have htake : js.reverse.take (js.length - i) = (js.drop i).reverse := by
      rw [← h1, List.reverse_reverse]
    rw [htake, walkTz_eq_find, List.reverse_reverse]
    rfl

/-- Witness for C1 at the spec's three-entry scenario: timestamps
100 < 200 < 300, only the middle entry declares America/New_York, and all
three entries resolve to America/New_York. -/
theorem c1_backfill_resolves_spec_tz_witness :
    dlookup
        (List.getD
          [[("Creation Date", Value.date 100), ("UUID", Value.str "u1"),
            ("Time Zone", Value.str "America/New_York"),
            ("Date", Value.adate (-17900) "America/New_York")],
           [("Creation Date", Value.date 200), ("UUID", Value.str "u2"),
            ("Time Zone", Value.str "America/New_York"),
            ("Date", Value.adate (-17800) "America/New_York")],
           [("Creation Date", Value.date 300), ("UUID", Value.str "u3"),
            ("Time Zone", Value.str "America/New_York"),
            ("Date", Value.adate (-17700) "America/New_York")]]
          0 []) "Time Zone" = some (Value.str "America/New_York") ∧
    dlookup
        (List.getD
          [[("Creation Date", Value.date 100), ("UUID", Value.str "u1"),
            ("Time Zone", Value.str "America/New_York"),
            ("Date", Value.adate (-17900) "America/New_York")],
           [("Creation Date", Value.date 200), ("UUID", Value.str "u2"),
            ("Time Zone", Value.str "America/New_York"),
            ("Date", Value.adate (-17800) "America/New_York")],
           [("Creation Date", Value.date 300), ("UUID", Value.str "u3"),
            ("Time Zone", Value.str "America/New_York"),
            ("Date", Value.adate (-17700) "America/New_York")]]
          1 []) "Time Zone" = some (Value.str "America/New_York") ∧
    dlookup
        (List.getD
          [[("Creation Date", Value.date 100), ("UUID", Value.str "u1"),
            ("Time Zone", Value.str "America/New_York"),
            ("Date", Value.adate (-17900) "America/New_York")],
           [("Creation Date", Value.date 200), ("UUID", Value.str "u2"),
            ("Time Zone", Value.str "America/New_York"),
            ("Date", Value.adate (-17800) "America/New_York")],
           [("Creation Date", Value.date 300), ("UUID", Value.str "u3"),
            ("Time Zone", Value.str "America/New_York"),
            ("Date", Value.adate (-17700) "America/New_York")]]
          2 []) "Time Zone" = some (Value.str "America/New_York") :=
  ⟨c1_backfill_resolves_spec_tz
      [[("Creation Date", Value.date 100), ("UUID", Value.str "u1")],
       [("Creation Date", Value.date 200), ("UUID", Value.str "u2"),
        ("Time Zone", Value.str "America/New_York")],
       [("Creation Date", Value.date 300), ("UUID", Value.str "u3")]]
      _ rfl 0 (by decide),
   c1_backfill_resolves_spec_tz
      [[("Creation Date", Value.date 100), ("UUID", Value.str "u1")],
       [("Creation Date", Value.date 200), ("UUID", Value.str "u2"),
        ("Time Zone", Value.str "America/New_York")],
       [("Creation Date", Value.date 300), ("UUID", Value.str "u3")]]
      _ rfl 1 (by decide),
   c1_backfill_resolves_spec_tz
      [[("Creation Date", Value.date 100), ("UUID", Value.str "u1")],
       [("Creation Date", Value.date 200), ("UUID", Value.str "u2"),
        ("Time Zone", Value.str "America/New_York")],
       [("Creation Date", Value.date 300), ("UUID", Value.str "u3")]]
      _ rfl 2 (by decide)⟩
